import Mathlib

/-!
# Verification of the QM9-to-ASE parser (`parser_qm9.py`)

Shallow embedding of the single source file `parser_qm9.py`.  An input file
is modelled as its list of lines (`List String`, line terminators already
removed — every use the source makes of a line goes through `split()` or
`strip()`, which discard them).  Fallible Python code is modelled with
`Except FormatError`; each constructor of `FormatError` records the site of
the Python exception (`IndexError`, `ValueError`, `KeyError`,
`AttributeError`) that the source would raise there.

Floating-point values are modelled exactly, as unnormalized rationals
(`PyNum`): every numeric literal the parser handles is decimal, and the only
arithmetic the source performs on parsed numbers is one multiplication by
the constant `27.2114`, so exact rational arithmetic mirrors the data flow
of the source; binary-float rounding is abstracted away.  `PyNum.toRat`
interprets a `PyNum` as the rational it denotes.

Simplifications, stated once here: Python's `float()` also accepts
`inf`/`nan`/underscored literals, which have no exact rational meaning and
never occur in QM9 data — the model's `parsePyFloat` rejects them; ASE's
`Atoms` constructor additionally validates chemical element symbols, which
is external-library behaviour no claim depends on and is not modelled.
ASE's `Atoms.new_array` rejects a positions array whose shape is not
`(n, 3)`; in particular an empty positions list (shape `(0,)`) is rejected,
which `create_atoms` models.
-/

/-! ## Python string primitives -/

/-- The whitespace characters recognised by Python's `str.split()` /
`str.strip()` (the ASCII ones; the exotic unicode ones never occur here). -/
def isPyWs (c : Char) : Bool :=
  c = ' ' || c = '\t' || c = '\n' || c = '\r' || c = '\x0c' || c = '\x0b'

/-- Worker for `pySplit`: accumulates the current token (reversed). -/
def splitWsAux : List Char → List Char → List String
  | [], acc => if acc = [] then [] else [String.mk acc.reverse]
  | c :: cs, acc =>
    if isPyWs c then
      (if acc = [] then splitWsAux cs [] else String.mk acc.reverse :: splitWsAux cs [])
    else splitWsAux cs (c :: acc)

/-- Python `s.split()` with no argument: split on runs of whitespace,
discarding empty tokens and leading/trailing whitespace. -/
def pySplit (s : String) : List String := splitWsAux s.data []

/-- Python `s.strip()`: remove leading and trailing whitespace. -/
def pyStrip (s : String) : String :=
  String.mk (((s.data.dropWhile fun c => isPyWs c).reverse.dropWhile fun c => isPyWs c).reverse)

/-- Python `s.replace("\t", " ")`: the pattern is a single character, so
occurrence-by-occurrence replacement is exactly a character map. -/
def replaceTab (s : String) : String :=
  String.mk (s.data.map fun c => if c = '\t' then ' ' else c)

/-- Numeric value of a list of decimal digit characters. -/
def digitsToNat (ds : List Char) : Nat :=
  ds.foldl (fun a c => a * 10 + (c.toNat - 48)) 0

/-- Split a character list into its leading run of decimal digits and the
rest. -/
def spanDigits (cs : List Char) : List Char × List Char :=
  (cs.takeWhile Char.isDigit, cs.dropWhile Char.isDigit)

/-- All-digits check on a nonempty list of characters. -/
def parseDigitsAll (cs : List Char) : Option Nat :=
  if cs.isEmpty then none
  else if cs.all Char.isDigit then some (digitsToNat cs) else none

/-- Python `int(s)` on a stripped character list: optional sign followed by
a nonempty digit string. -/
def parsePyIntCore : List Char → Option Int
  | '-' :: cs => (parseDigitsAll cs).map fun v => -(v : Int)
  | '+' :: cs => (parseDigitsAll cs).map fun v => (v : Int)
  | cs => (parseDigitsAll cs).map fun v => (v : Int)

/-- Python `int(s)` for a string: `int()` strips surrounding whitespace
itself. -/
def parsePyInt (s : String) : Option Int := parsePyIntCore (pyStrip s).data

/-- Exact model of a Python float produced by this parser: an unnormalized
rational (numerator over a power-of-ten-shaped positive denominator). -/
structure PyNum where
  num : Int
  den : Nat
deriving DecidableEq, Repr

/-- Exact product of two modelled floats. -/
def PyNum.mul (a b : PyNum) : PyNum := ⟨a.num * b.num, a.den * b.den⟩

/-- The rational number a `PyNum` denotes. -/
def PyNum.toRat (a : PyNum) : ℚ := (a.num : ℚ) / (a.den : ℚ)

/-- Python `float(s)` on a stripped character list: optional sign, decimal
digits with optional fraction part, optional decimal exponent. -/
def parseFloatCore (cs : List Char) : Option PyNum :=
  let sgn := match cs with
    | '-' :: rest => (true, rest)
    | '+' :: rest => (false, rest)
    | rest => (false, rest)
  let ipr := spanDigits sgn.2
  let fpr := match ipr.2 with
    | '.' :: rest => spanDigits rest
    | rest => ([], rest)
  if ipr.1.isEmpty && fpr.1.isEmpty then none
  else
    let mantAbs : Int := (digitsToNat ipr.1 * 10 ^ fpr.1.length + digitsToNat fpr.1 : Nat)
    let mantNum : Int := if sgn.1 then -mantAbs else mantAbs
    let mantDen : Nat := 10 ^ fpr.1.length
    match fpr.2 with
    | [] => some ⟨mantNum, mantDen⟩
    | e :: rest =>
      if e = 'e' || e = 'E' then
        let esgn := match rest with
          | '-' :: r => (true, r)
          | '+' :: r => (false, r)
          | r => (false, r)
        let edr := spanDigits esgn.2
        if edr.1.isEmpty || !edr.2.isEmpty then none
        else if esgn.1 then some ⟨mantNum, mantDen * 10 ^ digitsToNat edr.1⟩
        else some ⟨mantNum * ((10 ^ digitsToNat edr.1 : Nat) : Int), mantDen⟩
      else none

/-- Python `float(s)` for a string: `float()` strips surrounding whitespace
itself. -/
def parsePyFloat (s : String) : Option PyNum := parseFloatCore (pyStrip s).data

/-- The conversion constant `27.2114` from line 58 of the source. -/
def hartree2eV : PyNum := ⟨272114, 10000⟩

/-! ## Data model -/

/-- A value of the `params` dictionary: the untouched string token, or the
float produced by the Hartree-to-eV conversion loop. -/
inductive PropValue where
  | str (s : String)
  | num (q : PyNum)
deriving DecidableEq, Repr

/-- The `params` dictionary, as an association list with (in this program)
pairwise-distinct keys. -/
abbrev Params := List (String × PropValue)

/-- Dictionary lookup, `d[k]`; `none` models a `KeyError`. -/
def dictLookup {α : Type} : List (String × α) → String → Option α
  | [], _ => none
  | (k', v) :: rest, k => if k' = k then some v else dictLookup rest k

/-- Dictionary assignment `d[k] = v` for a key already present (the only
way the source uses it): the entry keeps its position. -/
def dictUpdate {α : Type} (d : List (String × α)) (k : String) (v : α) :
    List (String × α) :=
  d.map fun p => if p.1 = k then (k, v) else p

/-- Failure sites of the parser; each constructor names the Python
exception site it models. -/
inductive FormatError where
  /-- `IndexError` on `lines[i]` for the header lines 0 and 1. -/
  | missingLine (i : Nat)
  /-- `ValueError` from `int(lines[0].strip())`. -/
  | atomCount
  /-- Failure inside the atom loop, the charge-array conversion, or the
  positions materialization: missing atom line, missing atom-line token,
  or non-numeric coordinate/charge. -/
  | atomRow
  /-- `KeyError` from `params[prop]` in the conversion loop. -/
  | propertyMissing (k : String)
  /-- `ValueError` from `float(...)` / `int(...)` on a property value. -/
  | propertyType (k : String)
  /-- `AttributeError`: `parser.atoms` was never assigned. -/
  | attrError
deriving DecidableEq, Repr

/-- The parsed output unit: models the `ase.Atoms` object built by
`create_atoms` — element symbols, materialized positions, the charges
array, and the `params` mapping stashed in `atoms.info`. -/
structure Molecule where
  symbols : List String
  positions : List (PyNum × PyNum × PyNum)
  charges : List PyNum
  info : Params
deriving DecidableEq, Repr

/-- The tuple returned by `read_xyz` (line 59 of the source). -/
structure RawXYZ where
  n_atoms : Int
  params : Params
  elements : List String
  positions : List (List String)
  charges : List PyNum
deriving DecidableEq, Repr

/-! ## The parser (`XYZParser`) -/

/-- `params_keys` from line 41 of the source. -/
def params_keys : List String :=
  ["db", "id", "A", "B", "C", "mu", "alpha", "homo", "lumo", "gap",
   "r2", "zpve", "U0", "U", "H", "G", "Cv"]

/-- The 8 energy-valued keys of the conversion loop (line 57). -/
def energy_keys : List String :=
  ["homo", "lumo", "gap", "zpve", "U0", "U", "H", "G"]

/-- `dict(zip(params_keys, params_values))` (line 56): positional zip,
silently truncated to the shorter list. -/
def initParams (toks : List String) : Params :=
  (params_keys.zip toks).map fun p => (p.1, PropValue.str p.2)

/-- The conversion loop (lines 57–58):
`params[prop] = float(params[prop]) * 27.2114` for each energy key in
order.  A missing key is a `KeyError`; a non-numeric value a
`ValueError`. -/
def convertEnergy : Params → List String → Except FormatError Params
  | ps, [] => .ok ps
  | ps, k :: ks =>
    match dictLookup ps k with
    | none => .error (.propertyMissing k)
    | some (.str v) =>
      match parsePyFloat v with
      | none => .error (.propertyType k)
      | some q => convertEnergy (dictUpdate ps k (.num (q.mul hartree2eV))) ks
    | some (.num q) => convertEnergy (dictUpdate ps k (.num (q.mul hartree2eV))) ks

/-- One iteration of the atom loop (lines 51–54): normalize tabs, split,
take token 0 (element), tokens 1–3 (position slice, Python slicing never
fails), token 4 (charge).  A missing token is an `IndexError`. -/
def parseAtomLine (l : String) :
    Except FormatError (String × List String × String) :=
  match (pySplit (replaceTab l))[0]? with
  | none => .error .atomRow
  | some e =>
    match (pySplit (replaceTab l))[4]? with
    | none => .error .atomRow
    | some c => .ok (e, ((pySplit (replaceTab l)).drop 1).take 3, c)

/-- The atom loop `for i in range(2, n_atoms+2)` (line 50), started at
index `i` with `k` iterations left; a missing line is an `IndexError`. -/
def readAtomsAux (lines : List String) :
    Nat → Nat → Except FormatError (List String × List (List String) × List String)
  | _, 0 => .ok ([], [], [])
  | i, Nat.succ k =>
    match lines[i]? with
    | none => .error .atomRow
    | some li =>
      match parseAtomLine li with
      | .error e => .error e
      | .ok (e, pos, c) =>
        match readAtomsAux lines (i + 1) k with
        | .error er => .error er
        | .ok (es, ps, cs) => .ok (e :: es, pos :: ps, c :: cs)

/-- `np.array(charges, dtype="float64")` (line 59): convert every charge
token to a float; a non-numeric token is a `ValueError`. -/
def parseCharges : List String → Except FormatError (List PyNum)
  | [] => .ok []
  | t :: ts =>
    match parsePyFloat t with
    | none => .error .atomRow
    | some q =>
      match parseCharges ts with
      | .error e => .error e
      | .ok qs => .ok (q :: qs)

/-- `XYZParser.read_xyz` (lines 28–59), in the source's evaluation order:
line 0 as atom count, line 1 split into property tokens, the atom loop,
then `dict(zip(...))` plus the energy-conversion loop, then the charge
array.  `range(2, n_atoms+2)` is empty when `n_atoms ≤ 0`, hence
`Int.toNat`. -/
def read_xyz (lines : List String) : Except FormatError RawXYZ :=
  match lines[0]? with
  | none => .error (.missingLine 0)
  | some l0 =>
    match parsePyInt (pyStrip l0) with
    | none => .error .atomCount
    | some n =>
      match lines[1]? with
      | none => .error (.missingLine 1)
      | some l1 =>
        match readAtomsAux lines 2 n.toNat with
        | .error e => .error e
        | .ok (elements, positions, chargeToks) =>
          match convertEnergy (initParams (pySplit l1)) energy_keys with
          | .error e => .error e
          | .ok params =>
            match parseCharges chargeToks with
            | .error e => .error e
            | .ok charges => .ok ⟨n, params, elements, positions, charges⟩

/-- One row of `np.asarray(positions, float)` inside `ase.Atoms`: exactly
three tokens, each numeric. -/
def rowToTriple (row : List String) :
    Except FormatError (PyNum × PyNum × PyNum) :=
  match row with
  | [x, y, z] =>
    match parsePyFloat x, parsePyFloat y, parsePyFloat z with
    | some qx, some qy, some qz => .ok (qx, qy, qz)
    | _, _, _ => .error .atomRow
  | _ => .error .atomRow

/-- All rows of the positions array. -/
def posToArray : List (List String) → Except FormatError (List (PyNum × PyNum × PyNum))
  | [] => .ok []
  | r :: rs =>
    match rowToTriple r with
    | .error e => .error e
    | .ok t =>
      match posToArray rs with
      | .error e => .error e
      | .ok ts => .ok (t :: ts)

/-- `XYZParser.create_atoms` (lines 61–77): `Atoms(elements,
positions=positions)` materializes the coordinate strings as a float array
of shape `(n, 3)` — an empty positions list has shape `(0,)` and is
rejected by ASE's shape check — then `atoms.info = params` and
`atoms.set_array("charges", charges)`. -/
def create_atoms (elements : List String) (positions : List (List String))
    (params : Params) (charges : List PyNum) : Except FormatError Molecule :=
  match posToArray positions with
  | .error e => .error e
  | .ok [] => .error .atomRow
  | .ok pos => .ok ⟨elements, pos, charges, params⟩

/-- `XYZParser.__init__` (lines 10–26): `read_xyz` then `create_atoms`;
the value is the `atoms` attribute of the constructed parser. -/
def XYZParser (lines : List String) : Except FormatError Molecule :=
  match read_xyz lines with
  | .error e => .error e
  | .ok raw => create_atoms raw.elements raw.positions raw.params raw.charges

/-! ## Batch layer (`QM9Parser`, `process_file`, `__main__`) -/

/-- The attributes of a `QM9Parser` object that outlive `__init__`:
`list_atoms` and the last `atoms` assigned (`none` models the attribute
never having been assigned). -/
structure QM9State where
  list_atoms : List Molecule
  atoms : Option Molecule
deriving DecidableEq, Repr

/-- The loop of `QM9Parser.__init__` (lines 84–87): per file,
`XYZParser.__init__` (which itself calls `create_atoms`), then a second
`create_atoms` on the same parsed data, then append. -/
def qm9Fold (st : QM9State) : List (List String) → Except FormatError QM9State
  | [] => .ok st
  | r :: rs =>
    match read_xyz r with
    | .error e => .error e
    | .ok raw =>
      match create_atoms raw.elements raw.positions raw.params raw.charges with
      | .error e => .error e
      | .ok _ =>
        match create_atoms raw.elements raw.positions raw.params raw.charges with
        | .error e => .error e
        | .ok a2 => qm9Fold ⟨st.list_atoms ++ [a2], some a2⟩ rs

/-- `QM9Parser.__init__` (lines 81–87). -/
def QM9Parser (records : List (List String)) : Except FormatError QM9State :=
  qm9Fold ⟨[], none⟩ records

/-- `process_file` (lines 89–92): `QM9Parser([file_path]).atoms`. -/
def process_file (r : List String) : Except FormatError Molecule :=
  match QM9Parser [r] with
  | .error e => .error e
  | .ok st =>
    match st.atoms with
    | some m => .ok m
    | none => .error .attrError

/-- `list(executor.map(process_file, xyz_files))` (line 100): results are
collected in order and the first worker exception is re-raised, aborting
the whole collection. -/
def processAll : List (List String) → Except FormatError (List Molecule)
  | [] => .ok []
  | r :: rs =>
    match process_file r with
    | .error e => .error e
    | .ok m =>
      match processAll rs with
      | .error e => .error e
      | .ok ms => .ok (m :: ms)

/-- One iteration of the write loop (lines 106–109): `int(atoms.info["id"])`
names the output file; the write itself is external I/O, modelled as the
`(id, molecule)` pair that is written. -/
def writeOne (m : Molecule) : Except FormatError (Int × Molecule) :=
  match dictLookup m.info "id" with
  | none => .error (.propertyMissing "id")
  | some (.str s) =>
    match parsePyInt s with
    | none => .error (.propertyType "id")
    | some k => .ok (k, m)
  | some (.num q) => .ok (q.num.tdiv (q.den : Int), m)

/-- The write loop over all collected molecules. -/
def writeAll : List Molecule → Except FormatError (List (Int × Molecule))
  | [] => .ok []
  | m :: ms =>
    match writeOne m with
    | .error e => .error e
    | .ok p =>
      match writeAll ms with
      | .error e => .error e
      | .ok ps => .ok (p :: ps)

/-- The `__main__` block (lines 96–109): collect all parses, then write
every output file.  The returned list is the sequence of written output
files; an error means the script died before writing anything (the write
loop is only reached after `list(executor.map(...))` has succeeded). -/
def runBatch (records : List (List String)) :
    Except FormatError (List (Int × Molecule)) :=
  match processAll records with
  | .error e => .error e
  | .ok ms => writeAll ms

/-- Sequential per-record parsing, for stating refinement: `XYZParser` on
each record in order, aborting at the first failure. -/
def parseAllRecords : List (List String) → Except FormatError (List Molecule)
  | [] => .ok []
  | r :: rs =>
    match XYZParser r with
    | .error e => .error e
    | .ok m =>
      match parseAllRecords rs with
      | .error e => .error e
      | .ok ms => .ok (m :: ms)

/-! ## Dictionary lemmas -/

theorem dictLookup_cons {α : Type} (a : String) (b : α) (rest : List (String × α))
    (k : String) :
    dictLookup ((a, b) :: rest) k = if a = k then some b else dictLookup rest k := rfl

theorem dictUpdate_cons {α : Type} (a : String) (b : α) (rest : List (String × α))
    (k : String) (v : α) :
    dictUpdate ((a, b) :: rest) k v =
      (if a = k then (k, v) else (a, b)) :: dictUpdate rest k v := by
  simp [dictUpdate]

theorem dictLookup_update_self {α : Type} (d : List (String × α)) (k : String)
    (v w : α) (h : dictLookup d k = some w) :
    dictLookup (dictUpdate d k v) k = some v := by
  induction d with
  | nil => simp [dictLookup] at h
  | cons p rest ih =>
    obtain ⟨a, b⟩ := p
    rw [dictUpdate_cons]
    by_cases hk : a = k
    · rw [if_pos hk, dictLookup_cons, if_pos rfl]
    · rw [dictLookup_cons, if_neg hk] at h
      rw [if_neg hk, dictLookup_cons, if_neg hk]
      exact ih h

theorem dictLookup_update_ne {α : Type} (d : List (String × α)) (k k' : String)
    (v : α) (h : k' ≠ k) :
    dictLookup (dictUpdate d k v) k' = dictLookup d k' := by
  induction d with
  | nil => simp [dictLookup, dictUpdate]
  | cons p rest ih =>
    obtain ⟨a, b⟩ := p
    rw [dictUpdate_cons, dictLookup_cons]
    by_cases hk : a = k
    · have hkk : ¬k = k' := fun hh => h hh.symm
      have hak : ¬a = k' := hk ▸ hkk
      rw [if_pos hk, dictLookup_cons, if_neg hkk, if_neg hak]
      exact ih
    · rw [if_neg hk, dictLookup_cons]
      by_cases hk' : a = k'
      · rw [if_pos hk', if_pos hk']
      · rw [if_neg hk', if_neg hk']
        exact ih

theorem dictUpdate_map_fst {α : Type} (d : List (String × α)) (k : String) (v : α) :
    (dictUpdate d k v).map Prod.fst = d.map Prod.fst := by
  induction d with
  | nil => rfl
  | cons p rest ih =>
    obtain ⟨a, b⟩ := p
    rw [dictUpdate_cons]
    by_cases hk : a = k
    · rw [if_pos hk]
      simp [hk, ih]
    · rw [if_neg hk]
      simp [ih]

theorem dictLookup_map_snd {α β : Type} (d : List (String × α)) (f : α → β)
    (k : String) :
    dictLookup (d.map fun p => (p.1, f p.2)) k = (dictLookup d k).map f := by
  induction d with
  | nil => rfl
  | cons p rest ih =>
    obtain ⟨a, b⟩ := p
    by_cases hk : a = k
    · simp [dictLookup, hk]
    · simp [dictLookup, hk, ih]

theorem dictLookup_eq_none_of_not_mem (d : Params) (k : String)
    (h : k ∉ d.map Prod.fst) : dictLookup d k = none := by
  induction d with
  | nil => rfl
  | cons p rest ih =>
    obtain ⟨a, b⟩ := p
    simp only [List.map_cons, List.mem_cons] at h
    push_neg at h
    have hk : a ≠ k := fun hh => h.1 hh.symm
    simp [dictLookup, hk, ih h.2]

theorem zip_map_fst_take {α β : Type} :
    ∀ (a : List α) (b : List β), (a.zip b).map Prod.fst = a.take b.length
  | [], _ => by simp
  | _ :: _, [] => by simp
  | x :: a, y :: b => by
    simp [List.zip_cons_cons, zip_map_fst_take a b]

/-! ## Lemmas about the property-conversion loop -/

theorem convertEnergy_map_fst :
    ∀ (ks : List String) (d d' : Params), convertEnergy d ks = .ok d' →
      d'.map Prod.fst = d.map Prod.fst
  | [], d, d', h => by
    cases h
    rfl
  | k :: ks, d, d', h => by
    unfold convertEnergy at h
    split at h
    · exact Except.noConfusion h
    · next v heq =>
      split at h
      · exact Except.noConfusion h
      · next q hq =>
        have := convertEnergy_map_fst ks _ _ h
        rw [this, dictUpdate_map_fst]
    · next q heq =>
      have := convertEnergy_map_fst ks _ _ h
      rw [this, dictUpdate_map_fst]

theorem convertEnergy_lookup_notMem :
    ∀ (ks : List String) (d d' : Params) (k : String), k ∉ ks →
      convertEnergy d ks = .ok d' → dictLookup d' k = dictLookup d k
  | [], d, d', k, _, h => by
    cases h
    rfl
  | k0 :: ks, d, d', k, hk, h => by
    have hne : k ≠ k0 := fun hh => hk (hh ▸ List.mem_cons_self k0 ks)
    have hks : k ∉ ks := fun hh => hk (List.mem_cons_of_mem k0 hh)
    unfold convertEnergy at h
    split at h
    · exact Except.noConfusion h
    · next v heq =>
      split at h
      · exact Except.noConfusion h
      · next q hq =>
        have := convertEnergy_lookup_notMem ks _ _ k hks h
        rw [this, dictLookup_update_ne _ _ _ _ hne]
    · next q heq =>
      have := convertEnergy_lookup_notMem ks _ _ k hks h
      rw [this, dictLookup_update_ne _ _ _ _ hne]

theorem convertEnergy_lookup_mem :
    ∀ (ks : List String) (d d' : Params) (k : String), ks.Nodup → k ∈ ks →
      (∀ v, dictLookup d k = some v → ∃ s, v = PropValue.str s) →
      convertEnergy d ks = .ok d' →
      ∃ s q, dictLookup d k = some (PropValue.str s) ∧ parsePyFloat s = some q ∧
        dictLookup d' k = some (PropValue.num (q.mul hartree2eV))
  | [], _, _, k, _, hk, _, _ => absurd hk (List.not_mem_nil k)
  | k0 :: ks, d, d', k, hnd, hk, hstr, h => by
    have hnd0 : k0 ∉ ks := (List.nodup_cons.mp hnd).1
    have hndks : ks.Nodup := (List.nodup_cons.mp hnd).2
    unfold convertEnergy at h
    split at h
    · exact Except.noConfusion h
    · next v heq =>
      split at h
      · exact Except.noConfusion h
      · next q hq =>
        rcases List.mem_cons.mp hk with hk0 | hkks
        · subst hk0
          refine ⟨v, q, heq, hq, ?_⟩
          rw [convertEnergy_lookup_notMem ks _ _ k hnd0 h]
          exact dictLookup_update_self d k _ _ heq
        · have hne : k ≠ k0 := fun hh => hnd0 (hh ▸ hkks)
          have htrans : dictLookup (dictUpdate d k0
              (PropValue.num (q.mul hartree2eV))) k = dictLookup d k :=
            dictLookup_update_ne d k0 k _ hne
          obtain ⟨s, q', hs, hq', hd'⟩ :=
            convertEnergy_lookup_mem ks _ d' k hndks hkks
              (fun v' hv' => hstr v' (htrans ▸ hv')) h
          exact ⟨s, q', htrans ▸ hs, hq', hd'⟩
    · next q heq =>
      rcases List.mem_cons.mp hk with hk0 | hkks
      · subst hk0
        obtain ⟨s, hsv⟩ := hstr _ heq
        exact absurd hsv (by simp)
      · have hne : k ≠ k0 := fun hh => hnd0 (hh ▸ hkks)
        have htrans : dictLookup (dictUpdate d k0
            (PropValue.num (q.mul hartree2eV))) k = dictLookup d k :=
          dictLookup_update_ne d k0 k _ hne
        obtain ⟨s, q', hs, hq', hd'⟩ :=
          convertEnergy_lookup_mem ks _ d' k hndks hkks
            (fun v' hv' => hstr v' (htrans ▸ hv')) h
        exact ⟨s, q', htrans ▸ hs, hq', hd'⟩

theorem initParams_lookup (toks : List String) (k : String) :
    dictLookup (initParams toks) k =
      (dictLookup (params_keys.zip toks) k).map PropValue.str :=
  dictLookup_map_snd (params_keys.zip toks) PropValue.str k

theorem initParams_lookup_str (toks : List String) (k : String) (v : PropValue)
    (h : dictLookup (initParams toks) k = some v) :
    ∃ s, v = PropValue.str s := by
  rw [initParams_lookup] at h
  cases hz : dictLookup (params_keys.zip toks) k with
  | none => rw [hz] at h; exact Option.noConfusion h
  | some s =>
    rw [hz] at h
    exact ⟨s, (Option.some.inj h).symm⟩

theorem initParams_map_fst (toks : List String) :
    (initParams toks).map Prod.fst = params_keys.take toks.length := by
  unfold initParams
  rw [List.map_map]
  have : (Prod.fst ∘ fun p : String × String => (p.1, PropValue.str p.2)) =
      Prod.fst := by
    funext p
    rfl
  rw [this, zip_map_fst_take]

theorem zip_lookup_idx {β : Type} :
    ∀ (keys : List String) (toks : List β) (k : String) (i : Nat), keys.Nodup →
      keys[i]? = some k → i < toks.length →
      dictLookup (keys.zip toks) k = toks[i]?
  | [], _, _, i, _, hk, _ => by simp at hk
  | _ :: _, [], _, i, _, _, hlen => by simp at hlen
  | k0 :: keys, t0 :: toks, k, 0, _, hk, _ => by
    simp only [List.getElem?_cons_zero] at hk
    cases hk
    simp [List.zip_cons_cons, dictLookup_cons]
  | k0 :: keys, t0 :: toks, k, i + 1, hnd, hk, hlen => by
    simp only [List.getElem?_cons_succ] at hk
    have hkmem : k ∈ keys := by
      have := List.getElem?_eq_some_iff.mp hk
      obtain ⟨hik, hget⟩ := this
      exact hget ▸ List.getElem_mem hik
    have hne : ¬k0 = k := fun hh => (List.nodup_cons.mp hnd).1 (hh ▸ hkmem)
    rw [List.zip_cons_cons, dictLookup_cons, if_neg hne]
    simp only [List.getElem?_cons_succ]
    exact zip_lookup_idx keys toks k i (List.nodup_cons.mp hnd).2 hk
      (by simpa using Nat.lt_of_succ_lt_succ hlen)

/-! ## Inversion lemmas for the parsing pipeline -/

theorem parseAtomLine_ok {l : String} {e : String} {pos : List String}
    {c : String} (h : parseAtomLine l = .ok (e, pos, c)) :
    (pySplit (replaceTab l))[0]? = some e ∧
    pos = ((pySplit (replaceTab l)).drop 1).take 3 ∧
    (pySplit (replaceTab l))[4]? = some c := by
  unfold parseAtomLine at h
  split at h
  · exact Except.noConfusion h
  · next e' he =>
    split at h
    · exact Except.noConfusion h
    · next c' hc =>
      cases h
      exact ⟨he, rfl, hc⟩

theorem parseAtomLine_err_kind {l : String} {e : FormatError}
    (h : parseAtomLine l = .error e) : e = .atomRow := by
  unfold parseAtomLine at h
  split at h
  · cases h; rfl
  · split at h
    · cases h; rfl
    · exact Except.noConfusion h

theorem parseAtomLine_short {l : String}
    (h : (pySplit (replaceTab l)).length < 5) :
    parseAtomLine l = .error .atomRow := by
  unfold parseAtomLine
  have h4 : (pySplit (replaceTab l))[4]? = none :=
    List.getElem?_eq_none (by omega)
  split
  · rfl
  · next e he =>
    rw [h4]

theorem readAtomsAux_ok {lines : List String} :
    ∀ (k : Nat) (i : Nat) (es : List String) (ps : List (List String))
      (cs : List String),
      readAtomsAux lines i k = .ok (es, ps, cs) →
      es.length = k ∧ ps.length = k ∧ cs.length = k ∧
      ∀ j, j < k → ∃ li, lines[i + j]? = some li ∧
        es[j]? = (pySplit (replaceTab li))[0]? ∧
        ps[j]? = some (((pySplit (replaceTab li)).drop 1).take 3) ∧
        cs[j]? = (pySplit (replaceTab li))[4]?
  | 0, i, es, ps, cs, h => by
    cases h
    exact ⟨rfl, rfl, rfl, fun j hj => absurd hj (Nat.not_lt_zero j)⟩
  | k + 1, i, es, ps, cs, h => by
    unfold readAtomsAux at h
    split at h
    · exact Except.noConfusion h
    · next li hli =>
      split at h
      · exact Except.noConfusion h
      · next e pos c hline =>
        split at h
        · exact Except.noConfusion h
        · next es' ps' cs' hrec =>
          cases h
          obtain ⟨hle, hlp, hlc, hpt⟩ := readAtomsAux_ok k (i + 1) es' ps' cs' hrec
          obtain ⟨he0, hpos, hc4⟩ := parseAtomLine_ok hline
          refine ⟨by simp [hle], by simp [hlp], by simp [hlc], ?_⟩
          intro j hj
          cases j with
          | zero =>
            refine ⟨li, by simpa using hli, ?_, ?_, ?_⟩
            · simp only [List.getElem?_cons_zero]
              exact he0.symm
            · simp only [List.getElem?_cons_zero]
              rw [hpos]
            · simp only [List.getElem?_cons_zero]
              exact hc4.symm
          | succ j =>
            obtain ⟨li', hli', he', hp', hc'⟩ := hpt j (Nat.lt_of_succ_lt_succ hj)
            refine ⟨li', ?_, by simpa using he', by simpa using hp', by simpa using hc'⟩
            have hsh : i + (j + 1) = i + 1 + j := by omega
            rw [hsh]
            exact hli'

theorem readAtomsAux_err_kind {lines : List String} :
    ∀ (k : Nat) (i : Nat) (e : FormatError),
      readAtomsAux lines i k = .error e → e = .atomRow
  | 0, _, _, h => Except.noConfusion h
  | k + 1, i, e, h => by
    unfold readAtomsAux at h
    split at h
    · cases h; rfl
    · next li hli =>
      split at h
      · next er hline =>
        injection h with h'
        rw [← h']
        exact parseAtomLine_err_kind hline
      · next ev pos c hline =>
        split at h
        · next er hrec =>
          injection h with h'
          rw [← h']
          exact readAtomsAux_err_kind k (i + 1) er hrec
        · exact Except.noConfusion h

theorem readAtomsAux_fails {lines : List String} :
    ∀ (k : Nat) (i : Nat) (j : Nat), j < k →
      (lines[i + j]? = none ∨
        ∃ li, lines[i + j]? = some li ∧ (pySplit (replaceTab li)).length < 5) →
      ∀ out, readAtomsAux lines i k ≠ .ok out
  | 0, _, j, hj, _, _ => absurd hj (Nat.not_lt_zero j)
  | k + 1, i, j, hj, hbad, out => by
    intro h
    unfold readAtomsAux at h
    split at h
    · next hnone0 =>
      exact Except.noConfusion h
    · next li hli =>
      split at h
      · exact Except.noConfusion h
      · next e pos c hline =>
        split at h
        · exact Except.noConfusion h
        · next es ps cs hrec =>
          cases j with
          | zero =>
            simp only [Nat.add_zero] at hbad
            rcases hbad with hnone | ⟨li', hli', hshort⟩
            · rw [hli] at hnone
              exact Option.noConfusion hnone
            · rw [hli] at hli'
              cases hli'
              rw [parseAtomLine_short hshort] at hline
              exact Except.noConfusion hline
          | succ j =>
            have hsh : i + (j + 1) = i + 1 + j := by omega
            rw [hsh] at hbad
            exact readAtomsAux_fails k (i + 1) j (Nat.lt_of_succ_lt_succ hj)
              hbad (es, ps, cs) hrec

theorem parseCharges_ok :
    ∀ (ts : List String) (qs : List PyNum), parseCharges ts = .ok qs →
      qs.length = ts.length ∧
      ∀ j, j < ts.length → ∃ t q, ts[j]? = some t ∧ parsePyFloat t = some q ∧
        qs[j]? = some q
  | [], qs, h => by
    cases h
    exact ⟨rfl, fun j hj => absurd hj (Nat.not_lt_zero j)⟩
  | t :: ts, qs, h => by
    unfold parseCharges at h
    split at h
    · exact Except.noConfusion h
    · next q hq =>
      split at h
      · exact Except.noConfusion h
      · next qs' hrec =>
        cases h
        obtain ⟨hlen, hpt⟩ := parseCharges_ok ts qs' hrec
        refine ⟨by simp [hlen], ?_⟩
        intro j hj
        cases j with
        | zero => exact ⟨t, q, by simp, hq, by simp⟩
        | succ j =>
          obtain ⟨t', q', ht', hq', hqs'⟩ := hpt j (by simpa using Nat.lt_of_succ_lt_succ hj)
          exact ⟨t', q', by simpa using ht', hq', by simpa using hqs'⟩

theorem parseCharges_err_kind :
    ∀ (ts : List String) (e : FormatError), parseCharges ts = .error e →
      e = .atomRow
  | [], _, h => Except.noConfusion h
  | t :: ts, e, h => by
    unfold parseCharges at h
    split at h
    · cases h; rfl
    · next q hq =>
      split at h
      · next er hrec =>
        injection h with h'
        rw [← h']
        exact parseCharges_err_kind ts er hrec
      · exact Except.noConfusion h

theorem parseCharges_fails (ts : List String) (t : String) (ht : t ∈ ts)
    (hbad : parsePyFloat t = none) :
    ∀ qs, parseCharges ts ≠ .ok qs := by
  intro qs h
  obtain ⟨j, hj, hget⟩ := List.getElem_of_mem ht
  obtain ⟨t', q, ht', hq, _⟩ := (parseCharges_ok ts qs h).2 j hj
  rw [List.getElem?_eq_getElem hj, hget] at ht'
  cases ht'
  rw [hbad] at hq
  exact Option.noConfusion hq

theorem rowToTriple_ok {row : List String} {t : PyNum × PyNum × PyNum}
    (h : rowToTriple row = .ok t) :
    ∃ sx sy sz, row = [sx, sy, sz] ∧ parsePyFloat sx = some t.1 ∧
      parsePyFloat sy = some t.2.1 ∧ parsePyFloat sz = some t.2.2 := by
  unfold rowToTriple at h
  split at h
  · next x y z =>
    split at h
    · next qx qy qz hx hy hz =>
      cases h
      exact ⟨x, y, z, rfl, hx, hy, hz⟩
    · exact Except.noConfusion h
  · exact Except.noConfusion h

theorem rowToTriple_fails (row : List String) (s : String) (hs : s ∈ row)
    (hbad : parsePyFloat s = none) :
    ∀ t, rowToTriple row ≠ .ok t := by
  intro t h
  obtain ⟨sx, sy, sz, hrow, hx, hy, hz⟩ := rowToTriple_ok h
  subst hrow
  rcases hs with _ | ⟨_, hs⟩
  · rw [hbad] at hx
    exact Option.noConfusion hx
  · rcases hs with _ | ⟨_, hs⟩
    · rw [hbad] at hy
      exact Option.noConfusion hy
    · rcases hs with _ | ⟨_, hs⟩
      · rw [hbad] at hz
        exact Option.noConfusion hz
      · exact absurd hs (List.not_mem_nil s)

theorem posToArray_ok :
    ∀ (rs : List (List String)) (ts : List (PyNum × PyNum × PyNum)),
      posToArray rs = .ok ts →
      ts.length = rs.length ∧
      ∀ j, j < rs.length → ∃ row t, rs[j]? = some row ∧
        rowToTriple row = .ok t ∧ ts[j]? = some t
  | [], ts, h => by
    cases h
    exact ⟨rfl, fun j hj => absurd hj (Nat.not_lt_zero j)⟩
  | r :: rs, ts, h => by
    unfold posToArray at h
    split at h
    · exact Except.noConfusion h
    · next t ht =>
      split at h
      · exact Except.noConfusion h
      · next ts' hrec =>
        cases h
        obtain ⟨hlen, hpt⟩ := posToArray_ok rs ts' hrec
        refine ⟨by simp [hlen], ?_⟩
        intro j hj
        cases j with
        | zero => exact ⟨r, t, by simp, ht, by simp⟩
        | succ j =>
          obtain ⟨row, t', hrow, ht', hts'⟩ := hpt j (by simpa using Nat.lt_of_succ_lt_succ hj)
          exact ⟨row, t', by simpa using hrow, ht', by simpa using hts'⟩

theorem posToArray_fails (rs : List (List String)) (row : List String)
    (hrow : row ∈ rs) (hbad : ∀ t, rowToTriple row ≠ .ok t) :
    ∀ ts, posToArray rs ≠ .ok ts := by
  intro ts h
  obtain ⟨j, hj, hget⟩ := List.getElem_of_mem hrow
  obtain ⟨row', t, hrow', ht, _⟩ := (posToArray_ok rs ts h).2 j hj
  rw [List.getElem?_eq_getElem hj, hget] at hrow'
  cases hrow'
  exact hbad t ht

theorem posToArray_err_kind :
    ∀ (rs : List (List String)) (e : FormatError), posToArray rs = .error e →
      e = .atomRow
  | [], _, h => Except.noConfusion h
  | r :: rs, e, h => by
    unfold posToArray at h
    split at h
    · next er hr =>
      injection h with h'
      rw [← h']
      unfold rowToTriple at hr
      split at hr
      · split at hr
        · exact Except.noConfusion hr
        · cases hr; rfl
      · cases hr; rfl
    · next t ht =>
      split at h
      · next er hrec =>
        injection h with h'
        rw [← h']
        exact posToArray_err_kind rs er hrec
      · exact Except.noConfusion h

/-! ## Forward evaluation and inversion for `read_xyz` and `XYZParser` -/

theorem read_xyz_atoms_error {lines : List String} {l0 : String} {n : Int}
    {l1 : String} {e : FormatError} (h0 : lines[0]? = some l0)
    (hn : parsePyInt (pyStrip l0) = some n) (h1 : lines[1]? = some l1)
    (ha : readAtomsAux lines 2 n.toNat = .error e) :
    read_xyz lines = .error e := by
  simp only [read_xyz, h0, hn, h1, ha]

theorem read_xyz_conv_error {lines : List String} {l0 : String} {n : Int}
    {l1 : String} {es : List String} {ps : List (List String)}
    {cs : List String} {e : FormatError} (h0 : lines[0]? = some l0)
    (hn : parsePyInt (pyStrip l0) = some n) (h1 : lines[1]? = some l1)
    (ha : readAtomsAux lines 2 n.toNat = .ok (es, ps, cs))
    (hc : convertEnergy (initParams (pySplit l1)) energy_keys = .error e) :
    read_xyz lines = .error e := by
  simp only [read_xyz, h0, hn, h1, ha, hc]

theorem read_xyz_charges_error {lines : List String} {l0 : String} {n : Int}
    {l1 : String} {es : List String} {ps : List (List String)}
    {cs : List String} {params : Params} {e : FormatError}
    (h0 : lines[0]? = some l0) (hn : parsePyInt (pyStrip l0) = some n)
    (h1 : lines[1]? = some l1)
    (ha : readAtomsAux lines 2 n.toNat = .ok (es, ps, cs))
    (hc : convertEnergy (initParams (pySplit l1)) energy_keys = .ok params)
    (hch : parseCharges cs = .error e) :
    read_xyz lines = .error e := by
  simp only [read_xyz, h0, hn, h1, ha, hc, hch]

theorem read_xyz_ok {lines : List String} {raw : RawXYZ}
    (h : read_xyz lines = .ok raw) :
    ∃ l0 n l1 es ps cs params charges,
      lines[0]? = some l0 ∧ parsePyInt (pyStrip l0) = some n ∧
      lines[1]? = some l1 ∧
      readAtomsAux lines 2 n.toNat = .ok (es, ps, cs) ∧
      convertEnergy (initParams (pySplit l1)) energy_keys = .ok params ∧
      parseCharges cs = .ok charges ∧
      raw = ⟨n, params, es, ps, charges⟩ := by
  unfold read_xyz at h
  split at h
  · exact Except.noConfusion h
  · next l0 h0 =>
    split at h
    · exact Except.noConfusion h
    · next n hn =>
      split at h
      · exact Except.noConfusion h
      · next l1 h1 =>
        split at h
        · exact Except.noConfusion h
        · next es ps cs ha =>
          split at h
          · exact Except.noConfusion h
          · next params hc =>
            split at h
            · exact Except.noConfusion h
            · next charges hch =>
              cases h
              exact ⟨l0, n, l1, es, ps, cs, params, charges,
                h0, hn, h1, ha, hc, hch, rfl⟩

theorem create_atoms_ok {elements : List String} {positions : List (List String)}
    {params : Params} {charges : List PyNum} {m : Molecule}
    (h : create_atoms elements positions params charges = .ok m) :
    ∃ pos, posToArray positions = .ok pos ∧ pos ≠ [] ∧
      m = ⟨elements, pos, charges, params⟩ := by
  unfold create_atoms at h
  split at h
  · exact Except.noConfusion h
  · exact Except.noConfusion h
  · next pos hne hp =>
    cases h
    exact ⟨pos, hp, hne, rfl⟩

theorem create_atoms_pos_error {elements : List String}
    {positions : List (List String)} {params : Params} {charges : List PyNum}
    {e : FormatError} (hp : posToArray positions = .error e) :
    create_atoms elements positions params charges = .error e := by
  simp only [create_atoms, hp]

theorem XYZParser_eq_create {lines : List String} {raw : RawXYZ}
    (hr : read_xyz lines = .ok raw) :
    XYZParser lines =
      create_atoms raw.elements raw.positions raw.params raw.charges := by
  simp only [XYZParser, hr]

theorem XYZParser_read_error {lines : List String} {e : FormatError}
    (hr : read_xyz lines = .error e) : XYZParser lines = .error e := by
  simp only [XYZParser, hr]

theorem XYZParser_ok {lines : List String} {m : Molecule}
    (h : XYZParser lines = .ok m) :
    ∃ raw pos, read_xyz lines = .ok raw ∧ posToArray raw.positions = .ok pos ∧
      pos ≠ [] ∧ m = ⟨raw.elements, pos, raw.charges, raw.params⟩ := by
  unfold XYZParser at h
  split at h
  · exact Except.noConfusion h
  · next raw hr =>
    obtain ⟨pos, hp, hne, hm⟩ := create_atoms_ok h
    exact ⟨raw, pos, hr, hp, hne, hm⟩

/-! ## Lemmas about the batch layer -/

theorem process_file_eq (r : List String) : process_file r = XYZParser r := by
  unfold process_file QM9Parser qm9Fold XYZParser
  cases hr : read_xyz r with
  | error e => simp
  | ok raw =>
    cases hc : create_atoms raw.elements raw.positions raw.params raw.charges with
    | error e => simp [hc]
    | ok a => simp [hc, qm9Fold]

theorem qm9Fold_spec :
    ∀ (rs : List (List String)) (st st' : QM9State), qm9Fold st rs = .ok st' →
      ∃ ms, parseAllRecords rs = .ok ms ∧ st'.list_atoms = st.list_atoms ++ ms
  | [], st, st', h => by
    cases h
    exact ⟨[], rfl, by simp⟩
  | r :: rs, st, st', h => by
    unfold qm9Fold at h
    split at h
    · exact Except.noConfusion h
    · next raw hr =>
      split at h
      · exact Except.noConfusion h
      · next a1 hc1 =>
        split at h
        · exact Except.noConfusion h
        · next a2 hc2 =>
          injection hc2 with ha12
          obtain ⟨ms, hms, hla⟩ := qm9Fold_spec rs _ st' h
          have hx : XYZParser r = .ok a2 := by
            rw [XYZParser_eq_create hr, ← ha12]
            exact hc1
          refine ⟨a2 :: ms, ?_, ?_⟩
          · unfold parseAllRecords
            rw [hx, hms]
          · rw [hla]
            simp

theorem parseAllRecords_spec :
    ∀ (rs : List (List String)) (ms : List Molecule),
      parseAllRecords rs = .ok ms →
      ms.length = rs.length ∧
      ∀ i, i < rs.length → ∃ r m, rs[i]? = some r ∧ XYZParser r = .ok m ∧
        ms[i]? = some m
  | [], ms, h => by
    cases h
    exact ⟨rfl, fun i hi => absurd hi (Nat.not_lt_zero i)⟩
  | r :: rs, ms, h => by
    unfold parseAllRecords at h
    split at h
    · exact Except.noConfusion h
    · next m hm =>
      split at h
      · exact Except.noConfusion h
      · next ms' hrec =>
        cases h
        obtain ⟨hlen, hpt⟩ := parseAllRecords_spec rs ms' hrec
        refine ⟨by simp [hlen], ?_⟩
        intro i hi
        cases i with
        | zero => exact ⟨r, m, by simp, hm, by simp⟩
        | succ i =>
          obtain ⟨r', m', hr', hm', hms'⟩ := hpt i (by simpa using Nat.lt_of_succ_lt_succ hi)
          exact ⟨r', m', by simpa using hr', hm', by simpa using hms'⟩

theorem processAll_fails :
    ∀ (rs : List (List String)) (r : List String), r ∈ rs →
      (XYZParser r).isOk = false → ∃ e, processAll rs = .error e
  | [], r, hr, _ => absurd hr (List.not_mem_nil r)
  | r0 :: rs, r, hr, hbad => by
    unfold processAll
    rcases List.mem_cons.mp hr with h0 | hmem
    · subst h0
      rw [process_file_eq]
      cases hx : XYZParser r with
      | error e => exact ⟨e, rfl⟩
      | ok m =>
        rw [hx] at hbad
        exact Bool.noConfusion hbad
    · cases hp : process_file r0 with
      | error e => exact ⟨e, rfl⟩
      | ok m =>
        obtain ⟨e, he⟩ := processAll_fails rs r hmem hbad
        rw [he]
        exact ⟨e, rfl⟩

theorem runBatch_fails (records : List (List String)) (r : List String)
    (hr : r ∈ records) (hbad : (XYZParser r).isOk = false) :
    ∃ e, runBatch records = .error e := by
  obtain ⟨e, he⟩ := processAll_fails records r hr hbad
  exact ⟨e, by simp only [runBatch, he]⟩

/-! ## Congruence in the line prefix (trailing lines are ignored) -/

theorem take_getElem? {α : Type} :
    ∀ (l : List α) (k j : Nat), j < k → (l.take k)[j]? = l[j]?
  | [], k, j, _ => by simp
  | x :: l, k + 1, 0, _ => by simp
  | x :: l, k + 1, j + 1, hj => by
    simp only [List.take_succ_cons, List.getElem?_cons_succ]
    exact take_getElem? l k j (Nat.lt_of_succ_lt_succ hj)

theorem readAtomsAux_congr {lines lines2 : List String} :
    ∀ (k i : Nat), (∀ j, j < k → lines[i + j]? = lines2[i + j]?) →
      readAtomsAux lines i k = readAtomsAux lines2 i k
  | 0, i, _ => rfl
  | k + 1, i, hpt => by
    have h0 : lines[i]? = lines2[i]? := by
      have := hpt 0 (Nat.succ_pos k)
      simpa using this
    unfold readAtomsAux
    rw [← h0]
    cases hli : lines[i]? with
    | none => rfl
    | some li =>
      have hrec : readAtomsAux lines (i + 1) k = readAtomsAux lines2 (i + 1) k := by
        apply readAtomsAux_congr k (i + 1)
        intro j hj
        have hsh : i + 1 + j = i + (j + 1) := by omega
        rw [hsh]
        exact hpt (j + 1) (Nat.succ_lt_succ hj)
      rw [hrec]

/-! ## Semantics of the float model -/

theorem PyNum.toRat_mul (a b : PyNum) : (a.mul b).toRat = a.toRat * b.toRat := by
  simp only [PyNum.mul, PyNum.toRat]
  push_cast
  ring

theorem hartree2eV_toRat : hartree2eV.toRat = 272114 / 10000 := by
  simp only [hartree2eV, PyNum.toRat]
  norm_num

theorem read_xyz_congr (lines lines2 : List String) (l0 : String) (n : Int)
    (h0 : lines[0]? = some l0) (hn : parsePyInt (pyStrip l0) = some n)
    (hpt : ∀ j, j < 2 + n.toNat → lines[j]? = lines2[j]?) :
    read_xyz lines = read_xyz lines2 := by
  have e0 : lines2[0]? = some l0 := by
    rw [← hpt 0 (by omega)]
    exact h0
  have e1 : lines[1]? = lines2[1]? := hpt 1 (by omega)
  have ea : readAtomsAux lines 2 n.toNat = readAtomsAux lines2 2 n.toNat :=
    readAtomsAux_congr n.toNat 2 (fun j hj => hpt (2 + j) (by omega))
  simp only [read_xyz, h0, e0, hn, ← e1, ea]

/-! ## Claim theorems -/

/-- Claim C1, amended: `read_xyz` performs no arity check on line 1 —
`dict(zip(params_keys, params_values))` silently truncates to the shorter
list.  When line 1 has 16 tokens and parsing succeeds, the properties
mapping is the 16-key prefix of the canonical keys and `Cv` is absent; no
property-arity failure occurs. -/
theorem C1_amended (lines : List String) (l1 : String) (m : Molecule)
    (h1 : lines[1]? = some l1) (h16 : (pySplit l1).length = 16)
    (hok : XYZParser lines = .ok m) :
    dictLookup m.info "Cv" = none ∧
    m.info.map Prod.fst = params_keys.take 16 := by
  obtain ⟨raw, pos, hr, hp, hne, hm⟩ := XYZParser_ok hok
  obtain ⟨l0', n', l1', es, ps, cs, params, charges, h0', hn', h1', ha, hc, hch,
    hraw⟩ := read_xyz_ok hr
  rw [h1] at h1'
  cases h1'
  have hfst : params.map Prod.fst = params_keys.take 16 := by
    rw [convertEnergy_map_fst energy_keys _ _ hc, initParams_map_fst, h16]
  have hinfo : m.info = params := by rw [hm, hraw]
  constructor
  · rw [hinfo]
    apply dictLookup_eq_none_of_not_mem
    rw [hfst]
    decide
  · rw [hinfo, hfst]

/-- Claim C2, amended: when parsing succeeds, the key list of the
properties mapping is the prefix of the canonical keys of length
`min 17 t` where `t` is the line-1 token count; it is exactly the 17
canonical keys whenever line 1 has at least 17 tokens (with 16 tokens the
parse can still succeed, with `Cv` missing). -/
theorem C2_amended (lines : List String) (l1 : String) (m : Molecule)
    (h1 : lines[1]? = some l1) (hok : XYZParser lines = .ok m) :
    m.info.map Prod.fst = params_keys.take (pySplit l1).length ∧
    (17 ≤ (pySplit l1).length → m.info.map Prod.fst = params_keys) := by
  obtain ⟨raw, pos, hr, hp, hne, hm⟩ := XYZParser_ok hok
  obtain ⟨l0', n', l1', es, ps, cs, params, charges, h0', hn', h1', ha, hc, hch,
    hraw⟩ := read_xyz_ok hr
  rw [h1] at h1'
  cases h1'
  have hinfo : m.info = params := by rw [hm, hraw]
  have hfst : m.info.map Prod.fst = params_keys.take (pySplit l1).length := by
    rw [hinfo, convertEnergy_map_fst energy_keys _ _ hc, initParams_map_fst]
  refine ⟨hfst, fun h17 => ?_⟩
  rw [hfst]
  exact List.take_of_length_le (by simpa using h17)

/-- Claim C3: for a record whose parse succeeds, every energy-valued key
among `homo, lumo, gap, zpve, U0, U, H, G` carries the float denoted by
its line-1 token multiplied by the constant `27.2114` (exactly, in the
rational model: the value denotes `q * 272114/10000` where `q` is the
rational the token denotes). -/
theorem C3_unit_conversion (lines : List String) (l1 : String) (m : Molecule)
    (k tok : String) (hok : XYZParser lines = .ok m)
    (h1 : lines[1]? = some l1) (hk : k ∈ energy_keys)
    (ht : dictLookup (params_keys.zip (pySplit l1)) k = some tok) :
    ∃ q, parsePyFloat tok = some q ∧
      dictLookup m.info k = some (PropValue.num (q.mul hartree2eV)) ∧
      (q.mul hartree2eV).toRat = q.toRat * (272114 / 10000 : ℚ) := by
  obtain ⟨raw, pos, hr, hp, hne, hm⟩ := XYZParser_ok hok
  obtain ⟨l0', n', l1', es, ps, cs, params, charges, h0', hn', h1', ha, hc, hch,
    hraw⟩ := read_xyz_ok hr
  rw [h1] at h1'
  cases h1'
  have hinit : dictLookup (initParams (pySplit l1)) k =
      some (PropValue.str tok) := by
    rw [initParams_lookup, ht]
    rfl
  obtain ⟨s, q, hs, hq, hd'⟩ := convertEnergy_lookup_mem energy_keys _ params k
    (by decide) hk (fun v hv => initParams_lookup_str _ _ _ hv) hc
  rw [hinit] at hs
  cases hs
  have hinfo : m.info = params := by rw [hm, hraw]
  refine ⟨q, hq, ?_, ?_⟩
  · rw [hinfo]
    exact hd'
  · rw [PyNum.toRat_mul, hartree2eV_toRat]

/-- Claim C4, amended: the driver collects all worker results with
`list(executor.map(process_file, xyz_files))`, which re-raises the first
worker exception; a single unparseable file therefore aborts the whole
batch before the write loop runs, so no output file is written — not N−1
of them. -/
theorem C4_amended (records : List (List String))
    (h : ∃ r, r ∈ records ∧ (XYZParser r).isOk = false) :
    ∃ e, runBatch records = .error e := by
  obtain ⟨r, hr, hbad⟩ := h
  exact runBatch_fails records r hr hbad

/-- Claim C5: when parsing succeeds, the element, position, and charge
sequences all have length `atom_count` (the integer on line 0), and the
`i`-th element symbol, position triple, and charge are the ones read off
the `i`-th atom line (line index `2 + i`), in order. -/
theorem C5_lengths_alignment (lines : List String) (l0 : String) (n : Int)
    (m : Molecule) (hok : XYZParser lines = .ok m)
    (h0 : lines[0]? = some l0) (hn : parsePyInt (pyStrip l0) = some n) :
    ((m.symbols.length : Int) = n ∧ (m.positions.length : Int) = n ∧
      (m.charges.length : Int) = n) ∧
    ∀ i, i < m.symbols.length → ∃ li,
      lines[2 + i]? = some li ∧
      m.symbols[i]? = (pySplit (replaceTab li))[0]? ∧
      (∃ t, rowToTriple (((pySplit (replaceTab li)).drop 1).take 3) = .ok t ∧
        m.positions[i]? = some t) ∧
      (∃ c q, (pySplit (replaceTab li))[4]? = some c ∧
        parsePyFloat c = some q ∧ m.charges[i]? = some q) := by
  obtain ⟨raw, pos, hr, hp, hne, hm⟩ := XYZParser_ok hok
  obtain ⟨l0', n', l1, es, ps, cs, params, charges, h0', hn', h1, ha, hc, hch,
    hraw⟩ := read_xyz_ok hr
  rw [h0] at h0'
  cases h0'
  rw [hn] at hn'
  cases hn'
  rw [hraw] at hm hp
  obtain ⟨hesl, hpsl, hcsl, haux⟩ := readAtomsAux_ok n.toNat 2 es ps cs ha
  obtain ⟨hchl, hchpt⟩ := parseCharges_ok cs charges hch
  obtain ⟨hposl, hpospt⟩ := posToArray_ok ps pos hp
  have hms : m.symbols = es := by rw [hm]
  have hmp : m.positions = pos := by rw [hm]
  have hmc : m.charges = charges := by rw [hm]
  have hn1 : 1 ≤ n.toNat := by
    cases hpos : pos with
    | nil => exact absurd hpos hne
    | cons a l =>
      have : pos.length = n.toNat := by rw [hposl, hpsl]
      rw [hpos] at this
      simp at this
      omega
  constructor
  · refine ⟨?_, ?_, ?_⟩
    · rw [hms, hesl]; omega
    · rw [hmp, hposl, hpsl]; omega
    · rw [hmc, hchl, hcsl]; omega
  · intro i hi
    rw [hms, hesl] at hi
    obtain ⟨li, hli, he, hpsi, hci⟩ := haux i hi
    refine ⟨li, hli, ?_, ?_, ?_⟩
    · rw [hms]
      exact he
    · obtain ⟨row, t, hrow, ht, hposi⟩ := hpospt i (by omega)
      rw [hpsi] at hrow
      cases hrow
      exact ⟨t, ht, by rw [hmp]; exact hposi⟩
    · obtain ⟨c, q, hcs, hq, hchi⟩ := hchpt i (by omega)
      rw [hci] at hcs
      exact ⟨c, q, hcs, hq, by rw [hmc]; exact hchi⟩

/-- Claim C6: each atom line is processed by replacing every tab with a
single space, splitting on whitespace, and selecting token 0 as the
element symbol, tokens 1–3 as the coordinate slice, and token 4 as the
charge; any further tokens are ignored and cause no failure. -/
theorem C6_atom_line_tokens (l t0 t1 t2 t3 t4 : String) (rest : List String)
    (h : pySplit (replaceTab l) = t0 :: t1 :: t2 :: t3 :: t4 :: rest) :
    parseAtomLine l = .ok (t0, [t1, t2, t3], t4) := by
  unfold parseAtomLine
  simp [h]

/-- Claim C7: the nine keys `db, id, A, B, C, mu, alpha, r2, Cv` of a
successfully parsed record hold exactly their original line-1 string
tokens (positions 0–6, 10, and 16); no numeric conversion touches them. -/
theorem C7_string_passthrough (lines : List String) (l1 : String)
    (m : Molecule) (hok : XYZParser lines = .ok m)
    (h1 : lines[1]? = some l1) (h17 : 17 ≤ (pySplit l1).length) :
    dictLookup m.info "db" = ((pySplit l1)[0]?).map PropValue.str ∧
    dictLookup m.info "id" = ((pySplit l1)[1]?).map PropValue.str ∧
    dictLookup m.info "A" = ((pySplit l1)[2]?).map PropValue.str ∧
    dictLookup m.info "B" = ((pySplit l1)[3]?).map PropValue.str ∧
    dictLookup m.info "C" = ((pySplit l1)[4]?).map PropValue.str ∧
    dictLookup m.info "mu" = ((pySplit l1)[5]?).map PropValue.str ∧
    dictLookup m.info "alpha" = ((pySplit l1)[6]?).map PropValue.str ∧
    dictLookup m.info "r2" = ((pySplit l1)[10]?).map PropValue.str ∧
    dictLookup m.info "Cv" = ((pySplit l1)[16]?).map PropValue.str := by
  obtain ⟨raw, pos, hr, hp, hne, hm⟩ := XYZParser_ok hok
  obtain ⟨l0', n', l1', es, ps, cs, params, charges, h0', hn', h1', ha, hc, hch,
    hraw⟩ := read_xyz_ok hr
  rw [h1] at h1'
  cases h1'
  have hinfo : m.info = params := by rw [hm, hraw]
  have key : ∀ (k : String) (idx : Nat), k ∉ energy_keys →
      params_keys[idx]? = some k → idx < (pySplit l1).length →
      dictLookup m.info k = ((pySplit l1)[idx]?).map PropValue.str := by
    intro k idx hkE hkI hlen
    rw [hinfo, convertEnergy_lookup_notMem energy_keys _ _ k hkE hc,
      initParams_lookup,
      zip_lookup_idx params_keys (pySplit l1) k idx (by decide) hkI hlen]
  exact ⟨key "db" 0 (by decide) (by decide) (by omega),
    key "id" 1 (by decide) (by decide) (by omega),
    key "A" 2 (by decide) (by decide) (by omega),
    key "B" 3 (by decide) (by decide) (by omega),
    key "C" 4 (by decide) (by decide) (by omega),
    key "mu" 5 (by decide) (by decide) (by omega),
    key "alpha" 6 (by decide) (by decide) (by omega),
    key "r2" 10 (by decide) (by decide) (by omega),
    key "Cv" 16 (by decide) (by decide) (by omega)⟩

/-- Claim C8: a record with fewer than `atom_count` atom lines, or with an
atom line missing one of the five required tokens, or — once the stages
the source runs first have succeeded — with a non-numeric charge or
coordinate token, fails with the atom-row error and yields no molecule. -/
theorem C8_atom_row_errors (lines : List String) (l0 : String) (n : Int)
    (l1 : String) (h0 : lines[0]? = some l0)
    (hn : parsePyInt (pyStrip l0) = some n) (h1 : lines[1]? = some l1) :
    ((lines.length : Int) < 2 + n → XYZParser lines = .error .atomRow) ∧
    (∀ i li, i < n.toNat → lines[2 + i]? = some li →
      (pySplit (replaceTab li)).length < 5 →
      XYZParser lines = .error .atomRow) ∧
    (∀ es ps cs t, readAtomsAux lines 2 n.toNat = .ok (es, ps, cs) →
      (convertEnergy (initParams (pySplit l1)) energy_keys).isOk = true →
      t ∈ cs → parsePyFloat t = none → XYZParser lines = .error .atomRow) ∧
    (∀ raw row s, read_xyz lines = .ok raw → row ∈ raw.positions →
      s ∈ row → parsePyFloat s = none →
      XYZParser lines = .error .atomRow) := by
  refine ⟨?_, ?_, ?_, ?_⟩
  · intro hshort
    have hlen2 : 2 ≤ lines.length := by
      by_contra hcon
      push_neg at hcon
      have hnone : lines[1]? = none := List.getElem?_eq_none (by omega)
      rw [h1] at hnone
      exact Option.noConfusion hnone
    have hbad : lines[2 + (n.toNat - 1)]? = none :=
      List.getElem?_eq_none (by omega)
    have hfail := readAtomsAux_fails n.toNat 2 (n.toNat - 1) (by omega)
      (Or.inl hbad)
    cases hres : readAtomsAux lines 2 n.toNat with
    | ok out => exact absurd hres (hfail out)
    | error e =>
      have he := readAtomsAux_err_kind n.toNat 2 e hres
      subst he
      exact XYZParser_read_error (read_xyz_atoms_error h0 hn h1 hres)
  · intro i li hi hli hshortli
    have hfail := readAtomsAux_fails n.toNat 2 i hi (Or.inr ⟨li, hli, hshortli⟩)
    cases hres : readAtomsAux lines 2 n.toNat with
    | ok out => exact absurd hres (hfail out)
    | error e =>
      have he := readAtomsAux_err_kind n.toNat 2 e hres
      subst he
      exact XYZParser_read_error (read_xyz_atoms_error h0 hn h1 hres)
  · intro es ps cs t ha hconv ht hbadt
    obtain ⟨params, hparams⟩ : ∃ params,
        convertEnergy (initParams (pySplit l1)) energy_keys = .ok params := by
      cases hcv : convertEnergy (initParams (pySplit l1)) energy_keys with
      | ok p => exact ⟨p, rfl⟩
      | error e =>
        rw [hcv] at hconv
        exact Bool.noConfusion hconv
    have hfail := parseCharges_fails cs t ht hbadt
    cases hch : parseCharges cs with
    | ok qs => exact absurd hch (hfail qs)
    | error e =>
      have he := parseCharges_err_kind cs e hch
      subst he
      exact XYZParser_read_error (read_xyz_charges_error h0 hn h1 ha hparams hch)
  · intro raw row s hr hrow hs hbads
    have hfail := posToArray_fails raw.positions row hrow
      (rowToTriple_fails row s hs hbads)
    cases hpa : posToArray raw.positions with
    | ok ts => exact absurd hpa (hfail ts)
    | error e =>
      have he := posToArray_err_kind raw.positions e hpa
      subst he
      rw [XYZParser_eq_create hr]
      exact create_atoms_pos_error hpa

/-- Claim C9: `QM9Parser` processes its file list in order, and on success
its `list_atoms` holds, at index `i`, exactly the molecule `XYZParser`
produces for the `i`-th file; `process_file` agrees with single-record
parsing outright. -/
theorem C9_batch_refinement (records : List (List String)) (st : QM9State)
    (h : QM9Parser records = .ok st) :
    parseAllRecords records = .ok st.list_atoms ∧
    st.list_atoms.length = records.length ∧
    (∀ i, i < records.length → ∃ r m, records[i]? = some r ∧
      XYZParser r = .ok m ∧ st.list_atoms[i]? = some m) ∧
    (∀ r, process_file r = XYZParser r) := by
  have h' : qm9Fold ⟨[], none⟩ records = .ok st := h
  obtain ⟨ms, hms, hla⟩ := qm9Fold_spec records ⟨[], none⟩ st h'
  simp only [List.nil_append] at hla
  obtain ⟨hlen, hpt⟩ := parseAllRecords_spec records ms hms
  refine ⟨by rw [hla]; exact hms, by rw [hla, hlen], ?_, process_file_eq⟩
  intro i hi
  obtain ⟨r, m, hr, hm, hmi⟩ := hpt i hi
  exact ⟨r, m, hr, hm, by rw [hla]; exact hmi⟩

/-- Claim C10: parsing only reads lines 0, 1, and the `atom_count` atom
lines; two inputs agreeing on that prefix parse identically, whatever
trailing content follows. -/
theorem C10_trailing_ignored (lines lines2 : List String) (l0 : String)
    (n : Int) (h0 : lines[0]? = some l0)
    (hn : parsePyInt (pyStrip l0) = some n)
    (hpre : lines.take (2 + n.toNat) = lines2.take (2 + n.toNat)) :
    XYZParser lines = XYZParser lines2 := by
  have hpt : ∀ j, j < 2 + n.toNat → lines[j]? = lines2[j]? := by
    intro j hj
    rw [← take_getElem? lines (2 + n.toNat) j hj, hpre,
      take_getElem? lines2 (2 + n.toNat) j hj]
  have hr := read_xyz_congr lines lines2 l0 n h0 hn hpt
  simp only [XYZParser, hr]

/-! ## Concrete records, counterexamples, and witnesses -/

/-- A line-1 with only 16 tokens (`Cv` token missing). -/
def c1Line1 : String := "a 5 1 1 1 1 1 2 1 1 1 1 1 1 1 1"

/-- One-atom record whose line 1 has 16 tokens. -/
def c1Rec : List String := ["1", c1Line1, "C 0 0 0 1"]

/-- Claim C1, counterexample: a record whose line 1 has 16 tokens is not
rejected — parsing succeeds, so no property-arity failure occurs and a
molecule is produced. -/
theorem C1_counterexample :
    (pySplit c1Line1).length = 16 ∧ (XYZParser c1Rec).isOk = true :=
  ⟨rfl, rfl⟩

/-- Another 16-token line 1, for the amended-claim witness. -/
def c1WLine1 : String := "b 6 1 1 1 1 1 2 1 1 1 1 1 1 1 1"

/-- One-atom record whose line 1 is `c1WLine1`. -/
def c1WRec : List String := ["1", c1WLine1, "H 0 0 0 1"]

/-- The molecule `c1WRec` parses to (16 property keys, no `Cv`). -/
def c1WMol : Molecule :=
  ⟨["H"], [(⟨0, 1⟩, ⟨0, 1⟩, ⟨0, 1⟩)], [⟨1, 1⟩],
   [("db", .str "b"), ("id", .str "6"), ("A", .str "1"), ("B", .str "1"),
    ("C", .str "1"), ("mu", .str "1"), ("alpha", .str "1"),
    ("homo", .num ⟨544228, 10000⟩), ("lumo", .num ⟨272114, 10000⟩),
    ("gap", .num ⟨272114, 10000⟩), ("r2", .str "1"),
    ("zpve", .num ⟨272114, 10000⟩), ("U0", .num ⟨272114, 10000⟩),
    ("U", .num ⟨272114, 10000⟩), ("H", .num ⟨272114, 10000⟩),
    ("G", .num ⟨272114, 10000⟩)]⟩

theorem C1_amended_witness :
    (pySplit c1WLine1).length = 16 ∧ XYZParser c1WRec = .ok c1WMol ∧
    (dictLookup c1WMol.info "Cv" = none ∧
      c1WMol.info.map Prod.fst = params_keys.take 16) :=
  ⟨rfl, rfl, C1_amended c1WRec c1WLine1 c1WMol rfl rfl rfl⟩

/-- A 16-token line 1 for the C2 counterexample. -/
def c2Line1 : String := "c 7 1 1 1 1 1 2 1 1 1 1 1 1 1 1"

/-- One-atom record whose line 1 is `c2Line1`. -/
def c2Rec : List String := ["1", c2Line1, "N 0 0 0 1"]

/-- Claim C2, counterexample: a record on which parsing succeeds whose
properties mapping has only 16 canonical keys — `Cv` is missing. -/
theorem C2_counterexample :
    (XYZParser c2Rec).map (fun m => m.info.map Prod.fst) =
      .ok (params_keys.take 16) ∧
    "Cv" ∉ params_keys.take 16 :=
  ⟨rfl, by decide⟩

/-- A 17-token line 1 for the C2 amended-claim witness. -/
def c2WLine1 : String := "d 8 1 1 1 1 1 2 1 1 1 1 1 1 1 1 1"

/-- One-atom record whose line 1 is `c2WLine1`. -/
def c2WRec : List String := ["1", c2WLine1, "O 0 0 0 1"]

/-- The molecule `c2WRec` parses to (all 17 property keys). -/
def c2WMol : Molecule :=
  ⟨["O"], [(⟨0, 1⟩, ⟨0, 1⟩, ⟨0, 1⟩)], [⟨1, 1⟩],
   [("db", .str "d"), ("id", .str "8"), ("A", .str "1"), ("B", .str "1"),
    ("C", .str "1"), ("mu", .str "1"), ("alpha", .str "1"),
    ("homo", .num ⟨544228, 10000⟩), ("lumo", .num ⟨272114, 10000⟩),
    ("gap", .num ⟨272114, 10000⟩), ("r2", .str "1"),
    ("zpve", .num ⟨272114, 10000⟩), ("U0", .num ⟨272114, 10000⟩),
    ("U", .num ⟨272114, 10000⟩), ("H", .num ⟨272114, 10000⟩),
    ("G", .num ⟨272114, 10000⟩), ("Cv", .str "1")]⟩

theorem C2_amended_witness :
    XYZParser c2WRec = .ok c2WMol ∧
    (c2WMol.info.map Prod.fst = params_keys.take (pySplit c2WLine1).length ∧
      (17 ≤ (pySplit c2WLine1).length →
        c2WMol.info.map Prod.fst = params_keys)) :=
  ⟨rfl, C2_amended c2WRec c2WLine1 c2WMol rfl rfl⟩

/-- A 17-token line 1 whose `homo` token is `-0.25`. -/
def c3Line1 : String := "e 9 1 1 1 1 1 -0.25 1 1 1 1 1 1 1 1 1"

/-- One-atom record whose line 1 is `c3Line1`. -/
def c3Rec : List String := ["1", c3Line1, "C 0 0 0 1"]

/-- The molecule `c3Rec` parses to: `homo = -0.25 * 27.2114`. -/
def c3Mol : Molecule :=
  ⟨["C"], [(⟨0, 1⟩, ⟨0, 1⟩, ⟨0, 1⟩)], [⟨1, 1⟩],
   [("db", .str "e"), ("id", .str "9"), ("A", .str "1"), ("B", .str "1"),
    ("C", .str "1"), ("mu", .str "1"), ("alpha", .str "1"),
    ("homo", .num ⟨-6802850, 1000000⟩), ("lumo", .num ⟨272114, 10000⟩),
    ("gap", .num ⟨272114, 10000⟩), ("r2", .str "1"),
    ("zpve", .num ⟨272114, 10000⟩), ("U0", .num ⟨272114, 10000⟩),
    ("U", .num ⟨272114, 10000⟩), ("H", .num ⟨272114, 10000⟩),
    ("G", .num ⟨272114, 10000⟩), ("Cv", .str "1")]⟩

theorem C3_unit_conversion_witness :
    XYZParser c3Rec = .ok c3Mol ∧ "homo" ∈ energy_keys ∧
    dictLookup (params_keys.zip (pySplit c3Line1)) "homo" = some "-0.25" ∧
    (∃ q, parsePyFloat "-0.25" = some q ∧
      dictLookup c3Mol.info "homo" = some (PropValue.num (q.mul hartree2eV)) ∧
      (q.mul hartree2eV).toRat = q.toRat * (272114 / 10000 : ℚ)) :=
  ⟨rfl, by decide, rfl,
   C3_unit_conversion c3Rec c3Line1 c3Mol "homo" "-0.25" rfl rfl (by decide) rfl⟩

/-- A well-formed one-atom record. -/
def c4Good : List String := ["1", "f 3 1 1 1 1 1 2 1 1 1 1 1 1 1 1 1", "C 0 0 0 1"]

/-- A malformed record: line 0 is not an integer. -/
def c4Bad : List String := ["x", "y"]

/-- Claim C4, counterexample: a batch of 2 files with exactly 1 malformed
does not produce 1 output file — collection of worker results re-raises
the parse error and the batch dies before writing anything. -/
theorem C4_counterexample :
    (XYZParser c4Good).isOk = true ∧ (XYZParser c4Bad).isOk = false ∧
    runBatch [c4Good, c4Bad] = .error .atomCount :=
  ⟨rfl, rfl, rfl⟩

theorem C4_amended_witness :
    (XYZParser c4Bad).isOk = false ∧
    (∃ e, runBatch [c4Good, c4Bad] = .error e) :=
  ⟨rfl, C4_amended [c4Good, c4Bad] ⟨c4Bad, by decide, rfl⟩⟩

/-- Two-atom record for the C5 witness. -/
def c5Rec : List String :=
  ["2", "g 4 1 1 1 1 1 2 1 1 1 1 1 1 1 1 1", "C 0 0 0 1", "H 1 1 1 2"]

/-- The molecule `c5Rec` parses to. -/
def c5Mol : Molecule :=
  ⟨["C", "H"],
   [(⟨0, 1⟩, ⟨0, 1⟩, ⟨0, 1⟩), (⟨1, 1⟩, ⟨1, 1⟩, ⟨1, 1⟩)],
   [⟨1, 1⟩, ⟨2, 1⟩],
   [("db", .str "g"), ("id", .str "4"), ("A", .str "1"), ("B", .str "1"),
    ("C", .str "1"), ("mu", .str "1"), ("alpha", .str "1"),
    ("homo", .num ⟨544228, 10000⟩), ("lumo", .num ⟨272114, 10000⟩),
    ("gap", .num ⟨272114, 10000⟩), ("r2", .str "1"),
    ("zpve", .num ⟨272114, 10000⟩), ("U0", .num ⟨272114, 10000⟩),
    ("U", .num ⟨272114, 10000⟩), ("H", .num ⟨272114, 10000⟩),
    ("G", .num ⟨272114, 10000⟩), ("Cv", .str "1")]⟩

theorem C5_lengths_alignment_witness :
    XYZParser c5Rec = .ok c5Mol ∧
    ((c5Mol.symbols.length : Int) = 2 ∧ (c5Mol.positions.length : Int) = 2 ∧
      (c5Mol.charges.length : Int) = 2) ∧
    (∃ li, c5Rec[2 + 1]? = some li ∧
      c5Mol.symbols[1]? = (pySplit (replaceTab li))[0]? ∧
      (∃ t, rowToTriple (((pySplit (replaceTab li)).drop 1).take 3) = .ok t ∧
        c5Mol.positions[1]? = some t) ∧
      (∃ c q, (pySplit (replaceTab li))[4]? = some c ∧
        parsePyFloat c = some q ∧ c5Mol.charges[1]? = some q)) :=
  ⟨rfl, (C5_lengths_alignment c5Rec "2" 2 c5Mol rfl rfl rfl).1,
   (C5_lengths_alignment c5Rec "2" 2 c5Mol rfl rfl rfl).2 1 (by decide)⟩

/-- An atom line with a tab separator and two trailing extra tokens. -/
def c6Line : String := "C\t1.0 2.0 3.0 -0.1 extra junk"

theorem C6_atom_line_tokens_witness :
    pySplit (replaceTab c6Line) =
      ["C", "1.0", "2.0", "3.0", "-0.1", "extra", "junk"] ∧
    parseAtomLine c6Line = .ok ("C", ["1.0", "2.0", "3.0"], "-0.1") :=
  ⟨rfl, C6_atom_line_tokens c6Line "C" "1.0" "2.0" "3.0" "-0.1"
    ["extra", "junk"] rfl⟩

/-- A 17-token line 1 with distinctive pass-through tokens. -/
def c7Line1 : String := "h 11 1.1 1.2 1.3 1.4 1.5 2 1 1 1.6 1 1 1 1 1 1.7"

/-- One-atom record whose line 1 is `c7Line1`. -/
def c7Rec : List String := ["1", c7Line1, "C 0 0 0 1"]

/-- The molecule `c7Rec` parses to. -/
def c7Mol : Molecule :=
  ⟨["C"], [(⟨0, 1⟩, ⟨0, 1⟩, ⟨0, 1⟩)], [⟨1, 1⟩],
   [("db", .str "h"), ("id", .str "11"), ("A", .str "1.1"), ("B", .str "1.2"),
    ("C", .str "1.3"), ("mu", .str "1.4"), ("alpha", .str "1.5"),
    ("homo", .num ⟨544228, 10000⟩), ("lumo", .num ⟨272114, 10000⟩),
    ("gap", .num ⟨272114, 10000⟩), ("r2", .str "1.6"),
    ("zpve", .num ⟨272114, 10000⟩), ("U0", .num ⟨272114, 10000⟩),
    ("U", .num ⟨272114, 10000⟩), ("H", .num ⟨272114, 10000⟩),
    ("G", .num ⟨272114, 10000⟩), ("Cv", .str "1.7")]⟩

theorem C7_string_passthrough_witness :
    XYZParser c7Rec = .ok c7Mol ∧ 17 ≤ (pySplit c7Line1).length ∧
    (dictLookup c7Mol.info "db" = ((pySplit c7Line1)[0]?).map PropValue.str ∧
      dictLookup c7Mol.info "id" = ((pySplit c7Line1)[1]?).map PropValue.str ∧
      dictLookup c7Mol.info "A" = ((pySplit c7Line1)[2]?).map PropValue.str ∧
      dictLookup c7Mol.info "B" = ((pySplit c7Line1)[3]?).map PropValue.str ∧
      dictLookup c7Mol.info "C" = ((pySplit c7Line1)[4]?).map PropValue.str ∧
      dictLookup c7Mol.info "mu" = ((pySplit c7Line1)[5]?).map PropValue.str ∧
      dictLookup c7Mol.info "alpha" = ((pySplit c7Line1)[6]?).map PropValue.str ∧
      dictLookup c7Mol.info "r2" = ((pySplit c7Line1)[10]?).map PropValue.str ∧
      dictLookup c7Mol.info "Cv" = ((pySplit c7Line1)[16]?).map PropValue.str) :=
  ⟨rfl, by decide,
   C7_string_passthrough c7Rec c7Line1 c7Mol rfl rfl (by decide)⟩

/-- A valid 17-token line 1 shared by the C8 failure records. -/
def c8Line17 : String := "i 12 1 1 1 1 1 2 1 1 1 1 1 1 1 1 1"

/-- Declares 3 atoms but provides only 1 atom line. -/
def c8RecA : List String := ["3", c8Line17, "C 0 0 0 1"]

/-- Atom line with only 4 tokens (charge token missing). -/
def c8RecB : List String := ["1", c8Line17, "C 0 0 0"]

/-- Atom line whose charge token is not numeric. -/
def c8RecC : List String := ["1", c8Line17, "C 0 0 0 xx"]

/-- Atom line whose second coordinate token is not numeric. -/
def c8RecD : List String := ["1", c8Line17, "C 0 qq 0 1"]

/-- The `read_xyz` result for `c8RecD`: the bad coordinate is still a raw
string here; it only fails when `create_atoms` materializes positions. -/
def c8RawD : RawXYZ :=
  ⟨1,
   [("db", .str "i"), ("id", .str "12"), ("A", .str "1"), ("B", .str "1"),
    ("C", .str "1"), ("mu", .str "1"), ("alpha", .str "1"),
    ("homo", .num ⟨544228, 10000⟩), ("lumo", .num ⟨272114, 10000⟩),
    ("gap", .num ⟨272114, 10000⟩), ("r2", .str "1"),
    ("zpve", .num ⟨272114, 10000⟩), ("U0", .num ⟨272114, 10000⟩),
    ("U", .num ⟨272114, 10000⟩), ("H", .num ⟨272114, 10000⟩),
    ("G", .num ⟨272114, 10000⟩), ("Cv", .str "1")],
   ["C"], [["0", "qq", "0"]], [⟨1, 1⟩]⟩

theorem C8_atom_row_errors_witness :
    XYZParser c8RecA = .error .atomRow ∧
    XYZParser c8RecB = .error .atomRow ∧
    XYZParser c8RecC = .error .atomRow ∧
    XYZParser c8RecD = .error .atomRow :=
  ⟨(C8_atom_row_errors c8RecA "3" 3 c8Line17 rfl rfl rfl).1 (by decide),
   (C8_atom_row_errors c8RecB "1" 1 c8Line17 rfl rfl rfl).2.1 0 "C 0 0 0"
     (by decide) rfl (by decide),
   (C8_atom_row_errors c8RecC "1" 1 c8Line17 rfl rfl rfl).2.2.1
     ["C"] [["0", "0", "0"]] ["xx"] "xx" rfl rfl (by decide) rfl,
   (C8_atom_row_errors c8RecD "1" 1 c8Line17 rfl rfl rfl).2.2.2
     c8RawD ["0", "qq", "0"] "qq" rfl (by decide) (by decide) rfl⟩

/-- One-atom record for the C9 witness. -/
def c9Rec : List String := ["1", "j 13 1 1 1 1 1 2 1 1 1 1 1 1 1 1 1", "C 0 0 0 1"]

/-- The molecule `c9Rec` parses to. -/
def c9Mol : Molecule :=
  ⟨["C"], [(⟨0, 1⟩, ⟨0, 1⟩, ⟨0, 1⟩)], [⟨1, 1⟩],
   [("db", .str "j"), ("id", .str "13"), ("A", .str "1"), ("B", .str "1"),
    ("C", .str "1"), ("mu", .str "1"), ("alpha", .str "1"),
    ("homo", .num ⟨544228, 10000⟩), ("lumo", .num ⟨272114, 10000⟩),
    ("gap", .num ⟨272114, 10000⟩), ("r2", .str "1"),
    ("zpve", .num ⟨272114, 10000⟩), ("U0", .num ⟨272114, 10000⟩),
    ("U", .num ⟨272114, 10000⟩), ("H", .num ⟨272114, 10000⟩),
    ("G", .num ⟨272114, 10000⟩), ("Cv", .str "1")]⟩

/-- The `QM9Parser` state after processing `[c9Rec]`. -/
def c9St : QM9State := ⟨[c9Mol], some c9Mol⟩

theorem C9_batch_refinement_witness :
    QM9Parser [c9Rec] = .ok c9St ∧
    parseAllRecords [c9Rec] = .ok c9St.list_atoms ∧
    (∃ r m, [c9Rec][0]? = some r ∧ XYZParser r = .ok m ∧
      c9St.list_atoms[0]? = some m) ∧
    process_file c9Rec = XYZParser c9Rec :=
  ⟨rfl, (C9_batch_refinement [c9Rec] c9St rfl).1,
   (C9_batch_refinement [c9Rec] c9St rfl).2.2.1 0 (by decide),
   (C9_batch_refinement [c9Rec] c9St rfl).2.2.2 c9Rec⟩

/-- A 17-token line 1 for the C10 witness. -/
def c10Line1 : String := "k 14 1 1 1 1 1 2 1 1 1 1 1 1 1 1 1"

/-- One-atom record with no trailing lines. -/
def c10RecA : List String := ["1", c10Line1, "C 0 0 0 1"]

/-- The same record with two lines of trailing garbage. -/
def c10RecB : List String :=
  ["1", c10Line1, "C 0 0 0 1", "trailing garbage", "more"]

theorem C10_trailing_ignored_witness :
    c10RecA.take (2 + (1 : Int).toNat) = c10RecB.take (2 + (1 : Int).toNat) ∧
    XYZParser c10RecA = XYZParser c10RecB :=
  ⟨rfl, C10_trailing_ignored c10RecA c10RecB "1" 1 rfl rfl rfl⟩
